import Mathlib

/-!
Verification of the ESP-v2 service-control HTTP filter
(`src/envoy/http/service_control/filter.cc`).

The per-request filter is embedded shallowly: the fields of the C++
`Filter` object become a Lean structure, each member function becomes a
pure Lean function from the filter state (plus the event's data) to the
new filter state together with a list of externally visible effects
(local replies, stat increments, outbound Check/Report dispatches,
cancellations).  External results (transport status of a call, JSON
decoding, `ConvertCheckResponse`) enter as parameters of the callback
events, mirroring the callback arguments of the C++ code.
-/

namespace ServiceControl

/-- `Filter::state_`: per-request call state (`enum State` in filter.h). -/
inductive CallState
  | Init
  | Calling
  | Complete
  | Responded
deriving DecidableEq, Repr

/-- The two fields of `CheckResponseInfo` that the filter reads. -/
structure CheckResponseInfo where
  is_api_key_valid : Bool := false
  service_is_activated : Bool := false
deriving DecidableEq, Repr

/-- Result of `RequestBuilder::ConvertCheckResponse`: the returned status
(`ok`) and the filled `CheckResponseInfo`. -/
structure ConvertResult where
  ok : Bool
  info : CheckResponseInfo
deriving DecidableEq, Repr

/-- `::google::api_proxy::service_control::CheckRequestInfo`, the fields the
filter fills in `onTokenDone`.  Time is an abstract tick. -/
structure CheckRequestInfo where
  operation_id : String
  operation_name : String
  producer_project_id : String
  api_key : String
  request_start_time : Nat
deriving DecidableEq, Repr

/-- The request headers the filter reads: `:path`, `:method`, plus the
remaining headers (used only by the spec-side api-key claim). -/
structure HeaderMap where
  path : String := "/"
  method : String := "GET"
  headers : List (String × String) := []
deriving DecidableEq, Repr

/-- The parts of the filter configuration the filter reads. -/
structure FilterConfig where
  producer_project_id : String := ""
  service_name : String := ""
deriving DecidableEq, Repr

/-- The mutable per-request members of `Filter`.  The two handles
`token_fetcher_` and `check_call_` are modelled by whether they are
non-null. -/
structure Filter where
  state : CallState := .Init
  stopped : Bool := false
  token_fetcher : Bool := false
  check_call : Bool := false
  uuid : String := ""
  operation_name : String := ""
  api_key : String := ""
  http_method : String := ""
  token : String := ""
  check_status_ok : Bool := true
  check_response_info : CheckResponseInfo := {}
deriving DecidableEq, Repr

/-- The parts of `StreamInfo` read by `Filter::log`. -/
structure StreamInfo where
  response_code : Option Nat := none
  bytes_received : Nat := 0
  bytes_sent : Nat := 0
deriving DecidableEq, Repr

/-- `::google::api_proxy::service_control::ReportRequestInfo`, the fields
`Filter::log` fills. -/
structure ReportRequestInfo where
  operation_id : String := ""
  operation_name : String := ""
  producer_project_id : String := ""
  api_key : String := ""
  request_start_time : Nat := 0
  api_method : String := ""
  api_name : String := ""
  api_version : String := ""
  log_message : String := ""
  url : String := ""
  method : String := ""
  check_response_info : CheckResponseInfo := {}
  response_code : Nat := 0
  status_ok : Bool := true
  request_size : Nat := 0
  response_size : Nat := 0
deriving DecidableEq, Repr

/-- Externally visible actions of the filter. -/
inductive Effect
  | SendLocalReply (code : Nat) (msg : String)
  | SetResponseFlag
  | ContinueDecoding
  | TokenFetchStart
  | CancelTokenFetch
  | CancelCheckCall
  | StatDenied
  | StatAllowed
  | CheckCall (suffix_uri : String) (token : String) (info : CheckRequestInfo)
  | ReportCall (suffix_uri : String) (token : String) (info : ReportRequestInfo)
deriving DecidableEq, Repr

inductive FilterHeadersStatus
  | Continue
  | StopIteration
deriving DecidableEq, Repr

inductive FilterDataStatus
  | Continue
  | StopIterationAndWatermark
deriving DecidableEq, Repr

inductive FilterTrailersStatus
  | Continue
  | StopIteration
deriving DecidableEq, Repr

/-! ## String helpers (`Http::Utility`) -/

/-- Characters before the first occurrence of `c` (the whole list when `c`
is absent).  Used for `findQueryStringStart`: `operation_name_` is the path
up to the first `?`. -/
def takeUntil (c : Char) : List Char → List Char
  | [] => []
  | x :: xs => if x = c then [] else x :: takeUntil c xs

/-- Characters after the first occurrence of `c`, `none` when absent. -/
def dropPast (c : Char) : List Char → Option (List Char)
  | [] => none
  | x :: xs => if x = c then some xs else dropPast c xs

/-- The `&`-separated chunks of a query string, as in the
`Http::Utility::parseParameters` loop: a trailing empty chunk (query ending
in `&`, or an empty query) yields no parameter. -/
def splitParams (rest : String) : List String :=
  match (rest.splitOn "&").reverse with
  | [] => []
  | last :: tl => if last = "" then tl.reverse else (last :: tl).reverse

/-- One `k=v` chunk; a chunk without `=` maps the whole chunk to `""`. -/
def parseParam (p : String) : String × String :=
  match dropPast '=' p.toList with
  | none => (p, "")
  | some v => (String.mk (takeUntil '=' p.toList), String.mk v)

/-- `Http::Utility::parseQueryString`: parameters after the first `?` of
the url, in chunk order.  (The C++ result is a `std::map` filled with
`emplace`, so lookup sees the first chunk with a given name; the list in
chunk order together with first-match lookup models that.) -/
def parseQueryString (url : String) : List (String × String) :=
  match dropPast '?' url.toList with
  | none => []
  | some rest => (splitParams (String.mk rest)).map parseParam

/-- First-match query-parameter lookup (= `std::map::find` on the
`emplace`-built map). -/
def findQueryParam (params : List (String × String)) (k : String) : Option String :=
  (params.find? (fun q => q.1 = k)).map (fun q => q.2)

/-- Header lookup by name (used only by the spec-side api-key claim). -/
def lookupHeader (h : HeaderMap) (name : String) : Option String :=
  (h.headers.find? (fun q => q.1 = name)).map (fun q => q.2)

/-! ## Filter member functions -/

/-- `Filter::ExtractRequestInfo`: fresh uuid; `operation_name_` from the
path with the query string removed; `api_key_` from the `key` query
parameter if present; `http_method_` from the method header. -/
def ExtractRequestInfo (f : Filter) (uuid : String) (h : HeaderMap) : Filter :=
  let f := { f with uuid := uuid }
  let f := { f with operation_name := String.mk (takeUntil '?' h.path.toList) }
  let params := parseQueryString h.path
  let f :=
    match findQueryParam params "key" with
    | some v => { f with api_key := v }
    | none => f
  { f with http_method := h.method }

/-- `Filter::rejectRequest`: denied stat, state := Responded, local reply,
response flag. -/
def rejectRequest (f : Filter) (code : Nat) (msg : String) : Filter × List Effect :=
  ({ f with state := .Responded },
   [.StatDenied, .SendLocalReply code msg, .SetResponseFlag])

/-- `Filter::decodeHeaders`: extract request info, enter `Calling`, start
the token fetch; since the check decision is pending the filter stops
iteration. -/
def decodeHeaders (f : Filter) (uuid : String) (h : HeaderMap) :
    Filter × FilterHeadersStatus × List Effect :=
  let f := ExtractRequestInfo f uuid h
  let f := { f with state := .Calling, stopped := false, token_fetcher := true }
  if f.state = .Complete then (f, .Continue, [.TokenFetchStart])
  else ({ f with stopped := true }, .StopIteration, [.TokenFetchStart])

/-- `Filter::onDestroy`: cancel and null the outstanding token fetch and
check call, if any. -/
def onDestroy (f : Filter) : Filter × List Effect :=
  ({ f with token_fetcher := false, check_call := false },
   (if f.token_fetcher then [Effect.CancelTokenFetch] else [])
     ++ (if f.check_call then [Effect.CancelCheckCall] else []))

/-- `Filter::onTokenDone`: null the fetch handle; bail out if already
`Responded`; reject on fetch failure; otherwise store the token and
dispatch the Check call. -/
def onTokenDone (cfg : FilterConfig) (f : Filter) (ok : Bool) (tok : String)
    (now : Nat) : Filter × List Effect :=
  let f := { f with token_fetcher := false }
  if f.state = .Responded then (f, [])
  else if !ok then rejectRequest f 401 "Failed to fetch access_token"
  else
    let f := { f with token := tok }
    let info : CheckRequestInfo :=
      { operation_id := f.uuid, operation_name := f.operation_name,
        producer_project_id := cfg.producer_project_id, api_key := f.api_key,
        request_start_time := now }
    ({ f with check_call := true },
     [.CheckCall (cfg.service_name ++ ":check") f.token info])

/-- `Filter::onCheckResponse`: null the call handle; bail out if already
`Responded`; reject on transport failure, on JSON decode failure, or on a
non-ok converted status; otherwise record the outcome, enter `Complete`
and resume decoding if it was stopped.  `status_ok` is the transport
status, `decode_ok` the result of `JsonStringToMessage`, `conv` the result
of `ConvertCheckResponse`. -/
def onCheckResponse (f : Filter) (status_ok : Bool) (decode_ok : Bool)
    (conv : ConvertResult) : Filter × List Effect :=
  let f := { f with check_call := false }
  if f.state = .Responded then (f, [])
  else if !status_ok then rejectRequest f 401 "Check failed"
  else if !decode_ok then rejectRequest f 401 "Check failed"
  else
    let f := { f with check_status_ok := conv.ok, check_response_info := conv.info }
    if !conv.ok then rejectRequest f 401 "Check failed"
    else ({ f with state := .Complete },
          .StatAllowed :: (if f.stopped then [Effect.ContinueDecoding] else []))

/-- `Filter::decodeData`: buffer (with watermark) while the check is in
flight, otherwise continue. -/
def decodeData (f : Filter) : FilterDataStatus :=
  if f.state = .Calling then .StopIterationAndWatermark else .Continue

/-- `Filter::decodeTrailers`: stop iteration while the check is in flight,
otherwise continue. -/
def decodeTrailers (f : Filter) : FilterTrailersStatus :=
  if f.state = .Calling then .StopIteration else .Continue

/-- The `ReportRequestInfo` assembled by `Filter::log`. -/
def buildReportInfo (cfg : FilterConfig) (f : Filter) (si : StreamInfo)
    (now : Nat) : ReportRequestInfo :=
  { operation_id := f.uuid
    operation_name := f.operation_name
    producer_project_id := cfg.producer_project_id
    api_key :=
      if f.check_response_info.is_api_key_valid
          && f.check_response_info.service_is_activated then f.api_key else ""
    request_start_time := now
    api_method := f.operation_name
    api_name := "Bookstore"
    api_version := "1.0"
    log_message := f.operation_name ++ " is called"
    url := f.operation_name
    method := f.http_method
    check_response_info := f.check_response_info
    response_code := si.response_code.getD 500
    status_ok := f.check_status_ok
    request_size := si.bytes_received
    response_size := si.bytes_sent }

/-- The discarding completion callback `dummy_on_done` of `Filter::log`,
as the effects it produces. -/
def dummy_on_done (status_ok : Bool) (body : String) : List Effect := []

/-- `Filter::log`: assemble the report info and dispatch the Report call;
no member of the filter is written. -/
def log (cfg : FilterConfig) (f : Filter) (si : StreamInfo) (now : Nat) :
    Filter × List Effect :=
  (f, [.ReportCall (cfg.service_name ++ ":report") f.token
        (buildReportInfo cfg f si now)])

/-! ## Spec-side definitions -/

/-- Modelled from the spec: one API-key extraction location of an
operation config ("header name or query parameter name, ordered"); the
operation-config type itself is not under src/. -/
inductive ApiKeyLocation
  | header (name : String)
  | query (name : String)
deriving DecidableEq, Repr

/-- Definition written from the claim's words, for comparison with the
source's `ExtractRequestInfo`: scan the operation config's ordered
API-key locations (headers first in config order, then query parameters)
and take the first present value. -/
def claimApiKeyExtraction (locs : List ApiKeyLocation) (h : HeaderMap) :
    Option String :=
  let headerNames := locs.filterMap fun l =>
    match l with | .header n => some n | .query _ => none
  let queryNames := locs.filterMap fun l =>
    match l with | .query n => some n | .header _ => none
  match headerNames.findSome? (fun n => lookupHeader h n) with
  | some v => some v
  | none => queryNames.findSome? (fun n => findQueryParam (parseQueryString h.path) n)

/-- Modelled from the spec: the Report payload built by
`RequestBuilder::FillReportRequest` — "request carries {operation id,
operation name, metrics (cost entries), log entry, response status, byte
counts, consumer/producer ids}". -/
structure ReportPayload where
  operation_id : String
  operation_name : String
  producer_project_id : String
  api_key : String
  log_entry : String
  url : String
  http_method : String
  response_code : Nat
  request_size : Nat
  response_size : Nat
deriving DecidableEq, Repr

/-- Modelled from the spec: `RequestBuilder::FillReportRequest` (its body
is not under src/; only its caller `Filter::log` is).  "Assembles usage
metrics (sizes, status), a structured log line, and consumer/producer
identifiers"; "pure and deterministic". -/
def FillReportRequest (info : ReportRequestInfo) : ReportPayload :=
  { operation_id := info.operation_id
    operation_name := info.operation_name
    producer_project_id := info.producer_project_id
    api_key := info.api_key
    log_entry := info.log_message
    url := info.url
    http_method := info.method
    response_code := info.response_code
    request_size := info.request_size
    response_size := info.response_size }

/-! ## Per-request event traces -/

/-- The filter as constructed for a fresh request. -/
def initialFilter : Filter := {}

/-- One per-request event, guarded as the surrounding host invokes the
member functions: headers are decoded once on the fresh filter; the token
and check callbacks fire only while their handle is outstanding (a
cancelled or never-started call does not call back). -/
inductive Step (cfg : FilterConfig) : Filter → Filter → Prop
  | headers (f : Filter) (uuid : String) (h : HeaderMap) :
      f.state = .Init → Step cfg f (decodeHeaders f uuid h).1
  | tokenDone (f : Filter) (ok : Bool) (tok : String) (now : Nat) :
      f.token_fetcher = true → Step cfg f (onTokenDone cfg f ok tok now).1
  | checkResponse (f : Filter) (so dok : Bool) (conv : ConvertResult) :
      f.check_call = true → Step cfg f (onCheckResponse f so dok conv).1
  | destroy (f : Filter) : Step cfg f (onDestroy f).1

/-- The filter states reachable from a fresh request by filter events. -/
def Reachable (cfg : FilterConfig) (f : Filter) : Prop :=
  Relation.ReflTransGen (Step cfg) initialFilter f

/-- Rank of a call state along the transition order
`Init → Calling → {Complete, Responded}`. -/
def stateRank : CallState → Nat
  | .Init => 0
  | .Calling => 1
  | .Complete => 2
  | .Responded => 2

/-- Handle discipline maintained by the filter: an outstanding token fetch
implies state `Calling` with no outstanding check call, and an outstanding
check call implies state `Calling`. -/
def HandleInv (f : Filter) : Prop :=
  (f.token_fetcher = true → f.state = .Calling ∧ f.check_call = false)
  ∧ (f.check_call = true → f.state = .Calling)

/-! ## Concrete fixtures -/

/-- An example filter configuration. -/
def cfg0 : FilterConfig := { producer_project_id := "p", service_name := "svc" }

/-- A filter waiting for its check decision with decoding stopped. -/
def fCalling : Filter :=
  { state := .Calling, stopped := true, operation_name := "/echo",
    api_key := "abc", http_method := "POST" }

/-- An allowed `ConvertCheckResponse` outcome. -/
def convOK : ConvertResult :=
  { ok := true, info := { is_api_key_valid := true, service_is_activated := true } }

/-- Headers whose path carries a `key` query parameter. -/
def hm0 : HeaderMap := { path := "/echo?key=abc", method := "POST", headers := [] }

/-- Headers carrying an api key in the `x-api-key` header and none in the
query string. -/
def hmX : HeaderMap := { path := "/echo", method := "GET",
                         headers := [("x-api-key", "abc")] }

/-- The filter right after `decodeHeaders` on a fresh request. -/
def fHdr : Filter := (decodeHeaders initialFilter "u" hm0).1

/-- The filter after its token fetch failed: state `Responded`. -/
def fResp : Filter := (onTokenDone cfg0 fHdr false "" 0).1

/-- An example report info record. -/
def rInfo0 : ReportRequestInfo := buildReportInfo cfg0 fCalling {} 3

/-! ## Invariant lemmas -/

lemma takeUntil_eq_takeWhile (c : Char) (l : List Char) :
    takeUntil c l = l.takeWhile (fun x => x != c) := by
  induction l with
  | nil => rfl
  | cons x xs ih =>
      by_cases hx : x = c
      · simp [takeUntil, List.takeWhile, hx]
      · have hb : (x != c) = true := by simp [bne_iff_ne, hx]
        simp [takeUntil, List.takeWhile, hx, hb, ih]

lemma ExtractRequestInfo_fields (f : Filter) (u : String) (h : HeaderMap) :
    (ExtractRequestInfo f u h).state = f.state
    ∧ (ExtractRequestInfo f u h).stopped = f.stopped
    ∧ (ExtractRequestInfo f u h).token_fetcher = f.token_fetcher
    ∧ (ExtractRequestInfo f u h).check_call = f.check_call := by
  unfold ExtractRequestInfo
  cases hq : findQueryParam (parseQueryString h.path) "key" <;> simp [hq]

lemma handleInv_initial : HandleInv initialFilter := by
  constructor <;> intro hc <;> simp [initialFilter] at hc

lemma handleInv_step {cfg : FilterConfig} {f f' : Filter}
    (hi : HandleInv f) (hs : Step cfg f f') : HandleInv f' := by
  cases hs with
  | headers uuid h hg =>
      have hcc : (ExtractRequestInfo f uuid h).check_call = f.check_call :=
        (ExtractRequestInfo_fields f uuid h).2.2.2
      have hccInit : f.check_call = false := by
        by_contra hc
        have := hi.2 (by revert hc; cases f.check_call <;> simp)
        rw [hg] at this
        exact CallState.noConfusion this
      constructor <;> intro hc <;>
        simp [decodeHeaders, hcc, hccInit] at *
  | tokenDone ok tok now hg =>
      have hcal : f.state = .Calling := (hi.1 hg).1
      have hcc : f.check_call = false := (hi.1 hg).2
      cases ok <;>
        simp [onTokenDone, rejectRequest, hcal, hcc, HandleInv]
  | checkResponse so dok conv hg =>
      have hcal : f.state = .Calling := hi.2 hg
      have htf : f.token_fetcher = false := by
        by_contra hc
        have := (hi.1 (by revert hc; cases f.token_fetcher <;> simp)).2
        rw [hg] at this
        exact Bool.noConfusion this
      cases so <;> cases dok <;>
        simp [onCheckResponse, rejectRequest, hcal, htf, HandleInv] <;>
        cases hok : conv.ok <;> simp [hok, htf]
  | destroy =>
      constructor <;> intro hc <;> simp [onDestroy] at hc

lemma handleInv_reachable {cfg : FilterConfig} {f : Filter}
    (hr : Reachable cfg f) : HandleInv f := by
  induction hr with
  | refl => exact handleInv_initial
  | tail _ hstep ih => exact handleInv_step ih hstep

/-! ## Claim theorems -/

/-- C1: For every request, forwarding of the request body never begins
before the Check decision is known: while the state machine is in
`Calling`, `decodeData` and `decodeTrailers` stop iteration (buffer the
body) rather than forward, and `ContinueDecoding` is emitted only by
`onCheckResponse` and only when the state has transitioned to `Complete`;
no other filter operation resumes decoding. -/
theorem c1_no_body_forward_before_check_decision (f : Filter) :
    (f.state = .Calling →
        decodeData f = .StopIterationAndWatermark
        ∧ decodeTrailers f = .StopIteration)
    ∧ (∀ so dok conv,
        Effect.ContinueDecoding ∈ (onCheckResponse f so dok conv).2 →
          (onCheckResponse f so dok conv).1.state = .Complete)
    ∧ (∀ cfg ok tok now,
        Effect.ContinueDecoding ∉ (onTokenDone cfg f ok tok now).2)
    ∧ (∀ u h, Effect.ContinueDecoding ∉ (decodeHeaders f u h).2.2)
    ∧ Effect.ContinueDecoding ∉ (onDestroy f).2 := by
  refine ⟨fun hc => ⟨by simp [decodeData, hc], by simp [decodeTrailers, hc]⟩,
    ?_, ?_, ?_, ?_⟩
  · intro so dok conv hmem
    by_cases hres : f.state = .Responded
    · simp [onCheckResponse, hres] at hmem
    · cases so <;> cases dok <;>
        simp [onCheckResponse, rejectRequest, hres] at hmem ⊢ <;>
        cases hok : conv.ok <;> simp [hok] at hmem ⊢
  · intro cfg ok tok now
    by_cases hres : f.state = .Responded
    · simp [onTokenDone, hres]
    · cases ok <;> simp [onTokenDone, rejectRequest, hres]
  · intro u h
    simp [decodeHeaders]
  · cases htf : f.token_fetcher <;> cases hcc : f.check_call <;>
      simp [onDestroy, htf, hcc]

/-- C1 witness: on a concrete stopped `Calling` filter, body and trailers
are buffered, and the successful check response that resumes decoding has
state `Complete`. -/
theorem c1_no_body_forward_witness :
    decodeData fCalling = .StopIterationAndWatermark
    ∧ decodeTrailers fCalling = .StopIteration
    ∧ (onCheckResponse fCalling true true convOK).1.state = .Complete := by
  have h := c1_no_body_forward_before_check_decision fCalling
  exact ⟨(h.1 rfl).1, (h.1 rfl).2, h.2.1 true true convOK (by decide)⟩

/-- C3: along any reachable step of the per-request state machine, the
state rank never decreases (no state is revisited), `Complete` and
`Responded` are terminal, and once the state is `Responded` the late
`onTokenDone` and `onCheckResponse` callbacks only null their handle,
change nothing else, and dispatch nothing. -/
theorem c3_state_monotonic_terminal (cfg : FilterConfig) (f f' : Filter)
    (hr : Reachable cfg f) (hs : Step cfg f f') :
    stateRank f.state ≤ stateRank f'.state
    ∧ ((f.state = .Complete ∨ f.state = .Responded) → f'.state = f.state)
    ∧ (f.state = .Responded →
        (∀ ok tok now, onTokenDone cfg f ok tok now
            = ({ f with token_fetcher := false }, []))
        ∧ (∀ so dok conv, onCheckResponse f so dok conv
            = ({ f with check_call := false }, []))) := by
  have hi := handleInv_reachable hr
  have hlate : f.state = .Responded →
      (∀ ok tok now, onTokenDone cfg f ok tok now
          = ({ f with token_fetcher := false }, []))
      ∧ (∀ so dok conv, onCheckResponse f so dok conv
          = ({ f with check_call := false }, [])) := by
    intro hres
    exact ⟨fun ok tok now => by simp [onTokenDone, hres],
           fun so dok conv => by simp [onCheckResponse, hres]⟩
  have hmain : stateRank f.state ≤ stateRank f'.state
      ∧ ((f.state = .Complete ∨ f.state = .Responded) → f'.state = f.state) := by
    cases hs with
    | headers uuid h hg =>
        have hst : (decodeHeaders f uuid h).1.state = .Calling := by
          simp [decodeHeaders]
        constructor
        · rw [hg, hst]; decide
        · intro hterm
          rcases hterm with h1 | h1 <;> rw [hg] at h1 <;> exact absurd h1 (by decide)
    | tokenDone ok tok now hg =>
        have hcal : f.state = .Calling := (hi.1 hg).1
        constructor
        · have hor : (onTokenDone cfg f ok tok now).1.state = .Calling
              ∨ (onTokenDone cfg f ok tok now).1.state = .Responded := by
            cases ok <;> simp [onTokenDone, rejectRequest, hcal]
          rcases hor with h1 | h1 <;> rw [hcal, h1] <;> decide
        · intro hterm
          rcases hterm with h1 | h1 <;> rw [hcal] at h1 <;> exact absurd h1 (by decide)
    | checkResponse so dok conv hg =>
        have hcal : f.state = .Calling := hi.2 hg
        constructor
        · have hor : (onCheckResponse f so dok conv).1.state = .Complete
              ∨ (onCheckResponse f so dok conv).1.state = .Responded := by
            cases so <;> cases dok <;>
              simp [onCheckResponse, rejectRequest, hcal] <;>
              cases hok : conv.ok <;> simp [hok]
          rcases hor with h1 | h1 <;> rw [hcal, h1] <;> decide
        · intro hterm
          rcases hterm with h1 | h1 <;> rw [hcal] at h1 <;> exact absurd h1 (by decide)
    | destroy =>
        have hst : (onDestroy f).1.state = f.state := rfl
        exact ⟨le_of_eq (by rw [hst]), fun _ => hst⟩
  exact ⟨hmain.1, hmain.2, hlate⟩

/-- C3 witness: a request whose token fetch failed is reachable in
`Responded`; destroying it keeps the state, and the late callbacks are
inert there. -/
theorem c3_state_monotonic_terminal_witness :
    stateRank fResp.state ≤ stateRank (onDestroy fResp).1.state
    ∧ ((fResp.state = .Complete ∨ fResp.state = .Responded) →
        (onDestroy fResp).1.state = fResp.state)
    ∧ (fResp.state = .Responded →
        (∀ ok tok now, onTokenDone cfg0 fResp ok tok now
            = ({ fResp with token_fetcher := false }, []))
        ∧ (∀ so dok conv, onCheckResponse fResp so dok conv
            = ({ fResp with check_call := false }, []))) := by
  have hreach : Reachable cfg0 fResp :=
    Relation.ReflTransGen.tail
      (Relation.ReflTransGen.tail Relation.ReflTransGen.refl
        (Step.headers initialFilter "u" hm0 rfl))
      (Step.tokenDone fHdr false "" 0 (by decide))
  exact c3_state_monotonic_terminal cfg0 fResp (onDestroy fResp).1 hreach
    (Step.destroy fResp)

/-- C2 counterexample: the claim says the api key is extracted by
scanning the operation config's ordered API-key locations (headers first,
then query parameters).  On headers carrying the key in the configured
`x-api-key` header, that rule yields `"abc"`, but the source's
`ExtractRequestInfo` leaves the api key empty: it never consults the
config or the headers. -/
theorem c2_extract_api_key_counterexample :
    claimApiKeyExtraction [ApiKeyLocation.header "x-api-key"] hmX = some "abc"
    ∧ (ExtractRequestInfo initialFilter "u" hmX).api_key = ""
    ∧ ("" : String) ≠ "abc" := by
  refine ⟨by decide, by decide, by decide⟩

/-- C2 (amended): `ExtractRequestInfo` derives the operation name by
taking the request path with the query string removed and captures the
HTTP method and a fresh uuid; the api key is taken solely from the first
`key` query parameter of the request path when present (the field is left
unchanged otherwise) — the operation config's API-key locations and the
request headers are not consulted. -/
theorem c2_extract_request_info_amended (f : Filter) (u : String)
    (h : HeaderMap) :
    (ExtractRequestInfo f u h).operation_name
        = String.mk (h.path.toList.takeWhile (fun c => c != '?'))
    ∧ (ExtractRequestInfo f u h).http_method = h.method
    ∧ (ExtractRequestInfo f u h).uuid = u
    ∧ (ExtractRequestInfo f u h).api_key
        = (findQueryParam (parseQueryString h.path) "key").getD f.api_key := by
  unfold ExtractRequestInfo
  cases hq : findQueryParam (parseQueryString h.path) "key" <;>
    simp [hq, takeUntil_eq_takeWhile]

/-- C4: for every Check response handled while not already `Responded`, a
non-OK transport status, a JSON decode failure, or a non-ok converted
status each moves the state to `Responded` and rejects with 401 and the
fixed generic message "Check failed"; only an OK, decodable, allowed
response moves the state to `Complete`. -/
theorem c4_check_response_outcomes (f : Filter) (hf : f.state ≠ .Responded)
    (so dok : Bool) (conv : ConvertResult) :
    ((so = false ∨ dok = false ∨ conv.ok = false) →
        (onCheckResponse f so dok conv).1.state = .Responded
        ∧ Effect.SendLocalReply 401 "Check failed"
            ∈ (onCheckResponse f so dok conv).2)
    ∧ (so = true → dok = true → conv.ok = true →
        (onCheckResponse f so dok conv).1.state = .Complete) := by
  constructor
  · intro hbad
    cases so <;> cases dok <;> cases hok : conv.ok <;>
      simp [onCheckResponse, rejectRequest, hf, hok] <;>
      simp [hok] at hbad
  · intro h1 h2 h3
    subst h1; subst h2
    simp [onCheckResponse, rejectRequest, hf, h3]

/-- C4 witness: on a concrete `Calling` filter, a transport failure
rejects with 401 "Check failed", and an OK, decodable, allowed response
completes. -/
theorem c4_check_response_outcomes_witness :
    ((onCheckResponse fCalling false true convOK).1.state = .Responded
      ∧ Effect.SendLocalReply 401 "Check failed"
          ∈ (onCheckResponse fCalling false true convOK).2)
    ∧ (onCheckResponse fCalling true true convOK).1.state = .Complete := by
  exact ⟨(c4_check_response_outcomes fCalling (by decide) false true convOK).1
            (Or.inl rfl),
         (c4_check_response_outcomes fCalling (by decide) true true convOK).2
            rfl rfl rfl⟩

/-- C5: for every request whose token fetch completes with a non-OK
status (and whose state machine has not already responded), the request
is rejected with 401 "Failed to fetch access_token" and no Check call is
dispatched. -/
theorem c5_token_fetch_failure_rejects (cfg : FilterConfig) (f : Filter)
    (hf : f.state ≠ .Responded) (tok : String) (now : Nat) :
    (onTokenDone cfg f false tok now).1.state = .Responded
    ∧ Effect.SendLocalReply 401 "Failed to fetch access_token"
        ∈ (onTokenDone cfg f false tok now).2
    ∧ ∀ su t i, Effect.CheckCall su t i ∉ (onTokenDone cfg f false tok now).2 := by
  simp [onTokenDone, rejectRequest, hf]

/-- C5 witness: concrete token-fetch failure on a `Calling` filter. -/
theorem c5_token_fetch_failure_witness :
    (onTokenDone cfg0 fCalling false "t" 0).1.state = .Responded
    ∧ Effect.SendLocalReply 401 "Failed to fetch access_token"
        ∈ (onTokenDone cfg0 fCalling false "t" 0).2
    ∧ ∀ su t i, Effect.CheckCall su t i
        ∉ (onTokenDone cfg0 fCalling false "t" 0).2 :=
  c5_token_fetch_failure_rejects cfg0 fCalling (by decide) "t" 0

/-- C6: the Report payload carries the api key exactly when the Check
response marked the api key valid and the service activated; otherwise it
carries the empty api key. -/
theorem c6_report_api_key_iff_validated (cfg : FilterConfig) (f : Filter)
    (si : StreamInfo) (now : Nat) :
    (FillReportRequest (buildReportInfo cfg f si now)).api_key
      = if f.check_response_info.is_api_key_valid
            && f.check_response_info.service_is_activated
        then f.api_key else "" := by
  simp [FillReportRequest, buildReportInfo]

/-- C7: `onDestroy` cancels any outstanding token fetch and check call and
nulls both handles; it keeps the state; a second invocation does nothing;
invoking it with no outstanding work is a complete no-op. -/
theorem c7_on_destroy_idempotent (f : Filter) :
    (onDestroy f).1.token_fetcher = false
    ∧ (onDestroy f).1.check_call = false
    ∧ (onDestroy f).1.state = f.state
    ∧ onDestroy (onDestroy f).1 = ((onDestroy f).1, [])
    ∧ (f.token_fetcher = false → f.check_call = false → onDestroy f = (f, [])) := by
  refine ⟨rfl, rfl, rfl, by simp [onDestroy], ?_⟩
  intro h1 h2
  cases f
  simp_all [onDestroy]

/-- C7 witness: destroying a fresh filter with no outstanding work is a
no-op, and a second destroy after a destroy does nothing. -/
theorem c7_on_destroy_idempotent_witness :
    (onDestroy initialFilter).1.token_fetcher = false
    ∧ (onDestroy initialFilter).1.check_call = false
    ∧ (onDestroy initialFilter).1.state = initialFilter.state
    ∧ onDestroy (onDestroy initialFilter).1 = ((onDestroy initialFilter).1, [])
    ∧ onDestroy initialFilter = (initialFilter, []) := by
  have h := c7_on_destroy_idempotent initialFilter
  exact ⟨h.1, h.2.1, h.2.2.1, h.2.2.2.1, h.2.2.2.2 rfl rfl⟩

/-- C8: `Filter::log` dispatches the Report exactly once, as its only
effect, changes no member of the filter, and its completion callback
`dummy_on_done` discards every result. -/
theorem c8_report_fire_and_forget (cfg : FilterConfig) (f : Filter)
    (si : StreamInfo) (now : Nat) :
    (log cfg f si now).1 = f
    ∧ (log cfg f si now).2
        = [Effect.ReportCall (cfg.service_name ++ ":report") f.token
            (buildReportInfo cfg f si now)]
    ∧ (∀ so body, dummy_on_done so body = []) :=
  ⟨rfl, rfl, fun _ _ => rfl⟩

/-- C9: `FillReportRequest` is deterministic — identical report info
yields identical payloads. -/
theorem c9_fill_report_request_deterministic (i j : ReportRequestInfo)
    (h : i = j) : FillReportRequest i = FillReportRequest j := by rw [h]

/-- C9 witness: determinism at a concrete report info record. -/
theorem c9_fill_report_request_witness :
    rInfo0 = rInfo0 ∧ FillReportRequest rInfo0 = FillReportRequest rInfo0 :=
  ⟨rfl, c9_fill_report_request_deterministic rInfo0 rInfo0 rfl⟩

/-- C10: regardless of configuration and request, the report info built by
`Filter::log` carries api name "Bookstore", api version "1.0", the log
message `operation_name ++ " is called"`, and a url equal to the operation
name, which `ExtractRequestInfo` sets to the path without its query
string. -/
theorem c10_report_constant_fields (cfg : FilterConfig) (f : Filter)
    (si : StreamInfo) (now : Nat) :
    (buildReportInfo cfg f si now).api_name = "Bookstore"
    ∧ (buildReportInfo cfg f si now).api_version = "1.0"
    ∧ (buildReportInfo cfg f si now).log_message = f.operation_name ++ " is called"
    ∧ (buildReportInfo cfg f si now).url = f.operation_name
    ∧ ∀ g u h, (ExtractRequestInfo g u h).operation_name
        = String.mk (takeUntil '?' h.path.toList) := by
  refine ⟨rfl, rfl, rfl, rfl, ?_⟩
  intro g u h
  unfold ExtractRequestInfo
  cases hq : findQueryParam (parseQueryString h.path) "key" <;> simp [hq]

end ServiceControl
